import Mathlib

/-!
# SparkyViz nutrition pipeline — verification development

A shallow embedding of the core logic of the SparkyViz dashboard
(SparkyFitness API client): credential-configuration parsing, the
nutrition-history aggregation (`fetchNutritionHistory`), the per-day food
entry transformation (`fetchFoodEntriesForDate`), the streak computation
(`calculateStreakAndTotalDays`) and the heatmap zone mapping
(`getHeatmapColor`), together with theorems settling the specification's
claims about them.

Modelling conventions:
* JavaScript numbers are modelled as exact rationals extended with the
  IEEE special values `Infinity`, `-Infinity` and `NaN` (`JsNum`): the
  operations the code performs on the values relevant here (scaling,
  `Math.round(x*10)/10`) stay exact on the decimal inputs involved, and
  the special values propagate exactly as in IEEE/JS arithmetic.
  Negative zero is not modelled (it never arises in the code paths here).
* Calendar-day strings (`YYYY-MM-DD`) are modelled by their day index,
  an integer: the code only ever builds them from consecutive `Date`
  values and compares them for equality, so the encoding is faithful.
* An instant in time is an integer count of minutes since the epoch;
  `Date.prototype.toISOString` renders the UTC calendar day, i.e. the
  floor-division of the instant by 1440 minutes.
* Network effects are abstracted: the pure aggregation core takes the
  already-parsed upstream responses (and, for the per-day meal fetches,
  a function `ℤ → Except Unit Meals` recording per-date success/failure)
  as arguments.
-/

/-- A JavaScript number: an exact rational, or one of the IEEE special
values `Infinity`, `-Infinity`, `NaN`. -/
inductive JsNum where
  | fin (q : ℚ)
  | inf
  | ninf
  | nan
deriving DecidableEq, Repr

namespace JsNum

/-- JS multiplication, restricted to the special-value propagation the
IEEE semantics prescribes; finite values multiply exactly. -/
def mul : JsNum → JsNum → JsNum
  | nan, _ => nan
  | _, nan => nan
  | fin a, fin b => fin (a * b)
  | fin a, inf => if 0 < a then inf else if a < 0 then ninf else nan
  | fin a, ninf => if 0 < a then ninf else if a < 0 then inf else nan
  | inf, fin b => if 0 < b then inf else if b < 0 then ninf else nan
  | ninf, fin b => if 0 < b then ninf else if b < 0 then inf else nan
  | inf, inf => inf
  | inf, ninf => ninf
  | ninf, inf => ninf
  | ninf, ninf => inf

/-- JS division: division by (positive) zero yields `Infinity`/`-Infinity`
(`0/0` yields `NaN`); finite divisions are exact. -/
def div : JsNum → JsNum → JsNum
  | nan, _ => nan
  | _, nan => nan
  | fin a, fin b =>
      if b = 0 then (if a = 0 then nan else if 0 < a then inf else ninf)
      else fin (a / b)
  | fin _, inf => fin 0
  | fin _, ninf => fin 0
  | inf, fin b => if 0 ≤ b then inf else ninf
  | ninf, fin b => if 0 ≤ b then ninf else inf
  | inf, _ => nan
  | ninf, _ => nan

/-- `Math.round`: round half toward positive infinity; special values are
returned unchanged. -/
def round : JsNum → JsNum
  | fin a => fin ((⌊a + 1/2⌋ : ℤ) : ℚ)
  | x => x

/-- JS strict `<`: any comparison involving `NaN` is false. -/
def lt : JsNum → JsNum → Bool
  | nan, _ => false
  | _, nan => false
  | fin a, fin b => decide (a < b)
  | fin _, inf => true
  | ninf, fin _ => true
  | ninf, inf => true
  | _, _ => false

/-- JS strict equality `===` on numbers: `NaN === NaN` is false. -/
def eqb : JsNum → JsNum → Bool
  | fin a, fin b => decide (a = b)
  | inf, inf => true
  | ninf, ninf => true
  | _, _ => false

/-- Whether a JS number is a finite value (neither infinite nor `NaN`). -/
def isFinite : JsNum → Bool
  | fin _ => true
  | _ => false

end JsNum

/-- `Math.round(x * 10) / 10` — the one-decimal-place rounding the client
applies to nutrient values. -/
def round1 (x : JsNum) : JsNum := ((x.mul (.fin 10)).round).div (.fin 10)

/-- The four meal-type categories of an upstream food entry. -/
inductive MealType where
  | breakfast
  | lunch
  | dinner
  | snack
deriving DecidableEq, Repr

/-- Upstream food-entry record (the fields `fetchFoodEntriesForDate`
reads). -/
structure UpstreamFoodEntry where
  food_name : String
  brand_name : String
  meal_type : MealType
  quantity : JsNum
  unit : String
  serving_size : JsNum
  calories : JsNum
  protein : JsNum
  carbs : JsNum
  fat : JsNum
deriving DecidableEq, Repr

/-- The `FoodItem` output record of the client. -/
structure FoodItem where
  name : String
  brand : Option String
  quantity : JsNum
  unit : String
  calories : JsNum
  protein : JsNum
  carbs : JsNum
  fat : JsNum
deriving DecidableEq, Repr

/-- A day's meals grouped by meal type (the shape returned by
`fetchFoodEntriesForDate`). -/
structure Meals where
  breakfast : List FoodItem
  lunch : List FoodItem
  dinner : List FoodItem
  snack : List FoodItem
deriving DecidableEq, Repr

/-- The empty meal breakdown. -/
def emptyMeals : Meals := ⟨[], [], [], []⟩

/-- Select the bucket of a `Meals` record for a given meal type. -/
def Meals.bucket (m : Meals) : MealType → List FoodItem
  | .breakfast => m.breakfast
  | .lunch => m.lunch
  | .dinner => m.dinner
  | .snack => m.snack

/-- The per-entry transformation of `fetchFoodEntriesForDate`: scale each
per-serving nutrient by `quantity / serving_size`, then round to one
decimal place (`Math.round(v * ratio * 10) / 10`). An empty brand string
is falsy in JS, so it becomes an absent `brand`. -/
def toFoodItem (e : UpstreamFoodEntry) : FoodItem :=
  let ratio := e.quantity.div e.serving_size
  { name := e.food_name
    brand := if e.brand_name = "" then none else some e.brand_name
    quantity := e.quantity
    unit := e.unit
    calories := round1 (e.calories.mul ratio)
    protein := round1 (e.protein.mul ratio)
    carbs := round1 (e.carbs.mul ratio)
    fat := round1 (e.fat.mul ratio) }

/-- The grouping loop of `fetchFoodEntriesForDate` applied to a parsed
successful response: each entry is transformed by `toFoodItem` and pushed,
in response order, onto the bucket of its meal type. -/
def fetchFoodEntriesForDate (entries : List UpstreamFoodEntry) : Meals :=
  { breakfast := (entries.filter (fun e => e.meal_type = .breakfast)).map toFoodItem
    lunch := (entries.filter (fun e => e.meal_type = .lunch)).map toFoodItem
    dinner := (entries.filter (fun e => e.meal_type = .dinner)).map toFoodItem
    snack := (entries.filter (fun e => e.meal_type = .snack)).map toFoodItem }

/-- Upstream daily-nutrition record (`mini-nutrition-trends` element): a
sparse per-day total keyed by its calendar day. -/
structure UpstreamNutritionDay where
  date : ℤ
  calories : JsNum
  protein : JsNum
  carbs : JsNum
  fat : JsNum
deriving DecidableEq, Repr

/-- The four nutrient totals of an output day record. -/
structure Nutrients where
  calories : JsNum
  protein : JsNum
  carbs : JsNum
  fat : JsNum
deriving DecidableEq, Repr

/-- The client's `DailyData` output record; `meals` is `none` exactly when
meal detail was not requested (JS `undefined`). -/
structure DailyData where
  date : ℤ
  nutrients : Nutrients
  meals : Option Meals
deriving DecidableEq, Repr

/-- Lookup in a `Map` built by iterating `set` over a list: the last entry
with the key wins. -/
def lookupNutrition (data : List UpstreamNutritionDay) (d : ℤ) :
    Option UpstreamNutritionDay :=
  data.reverse.find? (fun r => r.date = d)

/-- The window of date strings `fetchNutritionHistory` builds: for
`i = 0, …, days-1` the day `startDate + i`, with
`startDate = today - days + 1`. A non-positive `days` produces the empty
list (the JS `for` loop body never runs). -/
def dateStrings (today days : ℤ) : List ℤ :=
  (List.range days.toNat).map (fun i : ℕ => today - days + 1 + (i : ℤ))

/-- The meal map built by the fan-out of per-day food-entry fetches: a
rejected promise is caught and replaced by the empty meal breakdown. -/
def mealsForDate (mealFetch : ℤ → Except Unit Meals) (d : ℤ) : Meals :=
  match mealFetch d with
  | .ok m => m
  | .error _ => emptyMeals

/-- The pure aggregation core of `fetchNutritionHistory` (after the
upstream identity has been resolved and the sparse daily totals parsed):
for each date of the window in order, look up the daily total (rounding
each nutrient to one decimal place, or zero-filling if absent) and attach
the day's meals when requested. -/
def fetchNutritionHistory (today days : ℤ)
    (nutritionData : List UpstreamNutritionDay)
    (includeMeals : Bool) (mealFetch : ℤ → Except Unit Meals) :
    List DailyData :=
  (dateStrings today days).map (fun d =>
    { date := d
      nutrients :=
        match lookupNutrition nutritionData d with
        | some r =>
            { calories := round1 r.calories
              protein := round1 r.protein
              carbs := round1 r.carbs
              fat := round1 r.fat }
        | none =>
            { calories := .fin 0, protein := .fin 0
              carbs := .fin 0, fat := .fin 0 }
      meals := if includeMeals then some (mealsForDate mealFetch d) else none })

/-- Lookup in the `Map` that `calculateStreakAndTotalDays` builds from the
history (iterated `set`, last entry wins). -/
def lookupHist (hist : List DailyData) (d : ℤ) : Option DailyData :=
  hist.reverse.find? (fun r => r.date = d)

/-- The backward-walking `while (true)` loop of
`calculateStreakAndTotalDays`. The JS loop increments the streak and then
breaks as soon as `currentStreak > nutritionHistory.length`, so along any
execution `fuel = len + 1 - streak` stays positive at every recursive
call; running the recursion on that fuel therefore reproduces the loop
exactly (the fuel-exhausted branch is unreachable from the initial state
`fuel = len + 1, streak = 0`). -/
def streakLoop (lookup : ℤ → Option DailyData) (len : ℕ) :
    ℕ → ℤ → ℕ → ℕ
  | 0, _, streak => streak
  | fuel + 1, d, streak =>
    match lookup d with
    | none => streak
    | some day =>
      if day.nutrients.calories.eqb (.fin 0) then streak
      else if len < streak + 1 then streak + 1
      else streakLoop lookup len fuel (d - 1) (streak + 1)

/-- `calculateStreakAndTotalDays`: `totalDays` counts the days with
`calories > 0`; `currentStreak` walks backward from today through the
date-keyed map until a missing day or a day with `calories === 0`. -/
def calculateStreakAndTotalDays (hist : List DailyData) (today : ℤ) :
    ℕ × ℕ :=
  let totalDays :=
    (hist.filter (fun day => (JsNum.fin 0).lt day.nutrients.calories)).length
  let currentStreak :=
    streakLoop (lookupHist hist) hist.length (hist.length + 1) today 0
  (currentStreak, totalDays)

/-- Round half toward positive infinity on an exact rational —
`Math.round` for the finite color-channel computations. -/
def jsRound (x : ℚ) : ℤ := ⌊x + 1/2⌋

/-- An `rgba(r, g, b, a)` color with integer channels and rational
opacity. -/
structure Rgba where
  r : ℤ
  g : ℤ
  b : ℤ
  a : ℚ
deriving DecidableEq, Repr

/-- The adjusted distance from the 100% target used by
`getHeatmapColor`: full weight below target, half weight above. -/
def adjustedDistance (p : ℚ) : ℚ :=
  if p < 100 then 100 - p else (p - 100) * (1/2)

/-- `getHeatmapColor`: the exact branch structure and color arithmetic of
the source, with rationals in place of floats (all the arithmetic here is
decimal and exact). -/
def getHeatmapColor (p : ℚ) : Rgba :=
  if p = 0 then ⟨229, 231, 235, 1⟩
  else
    let d := adjustedDistance p
    if d ≤ 15 then
      ⟨34, 197, 94, 1 - (d / 15) * (3/10)⟩
    else if d ≤ 30 then
      let t := (d - 15) / 15
      ⟨jsRound (34 + (234 - 34) * t), jsRound (197 + (179 - 197) * t),
       jsRound (94 + (0 - 94) * t), 9/10 - t * (1/10)⟩
    else if d ≤ 50 then
      let t := (d - 30) / 20
      ⟨jsRound (234 + (249 - 234) * t), jsRound (179 + (115 - 179) * t),
       jsRound (0 + (0 - 0) * t), 17/20 - t * (1/20)⟩
    else
      let t := min ((d - 50) / 50) 1
      ⟨239, jsRound (115 - 115 * t * (3/10)), jsRound (0 + 68 * t * (3/10)),
       17/20 + t * (3/20)⟩

/-- The five heatmap severity zones of the specification. -/
inductive Zone where
  | NoData
  | Good
  | Mid
  | Low
  | High
deriving DecidableEq, Repr

/-- The zone (branch) selected by `getHeatmapColor`: `NoData` for a zero
percentage, otherwise bucketed by adjusted distance at the breakpoints
15 / 30 / 50. -/
def heatmapZone (p : ℚ) : Zone :=
  if p = 0 then .NoData
  else
    let d := adjustedDistance p
    if d ≤ 15 then .Good
    else if d ≤ 30 then .Mid
    else if d ≤ 50 then .Low
    else .High

/-- The color each zone's branch of `getHeatmapColor` produces, as a
function of the adjusted distance. -/
def colorOfZone (z : Zone) (d : ℚ) : Rgba :=
  match z with
  | .NoData => ⟨229, 231, 235, 1⟩
  | .Good => ⟨34, 197, 94, 1 - (d / 15) * (3/10)⟩
  | .Mid =>
      let t := (d - 15) / 15
      ⟨jsRound (34 + (234 - 34) * t), jsRound (197 + (179 - 197) * t),
       jsRound (94 + (0 - 94) * t), 9/10 - t * (1/10)⟩
  | .Low =>
      let t := (d - 30) / 20
      ⟨jsRound (234 + (249 - 234) * t), jsRound (179 + (115 - 179) * t),
       jsRound (0 + (0 - 0) * t), 17/20 - t * (1/20)⟩
  | .High =>
      let t := min ((d - 50) / 50) 1
      ⟨239, jsRound (115 - 115 * t * (3/10)), jsRound (0 + 68 * t * (3/10)),
       17/20 + t * (3/20)⟩

/-- Numeric severity of a zone: `Good < Mid < Low < High` (for nonzero
percentages; `NoData` only arises at percentage 0). -/
def severity : Zone → ℕ
  | .NoData => 0
  | .Good => 0
  | .Mid => 1
  | .Low => 2
  | .High => 3

/-- JS `String.prototype.split` with a one-character separator, on
strings as character lists: keeps empty segments, and the empty string
splits to one empty segment. -/
def splitOnSep (sep : Char) : List Char → List (List Char)
  | [] => [[]]
  | c :: rest =>
    match splitOnSep sep rest with
    | [] => [[c]]
    | cur :: more => if c = sep then [] :: cur :: more else (c :: cur) :: more

/-- JS `String.prototype.trim`: drop leading and trailing whitespace. -/
def trimStr (s : List Char) : List Char :=
  ((s.dropWhile Char.isWhitespace).reverse.dropWhile Char.isWhitespace).reverse

/-- One entry of the `SPARKYFITNESS_API_KEYS` environment variable: after
trimming, it must split on `:` into exactly three parts, all nonempty
(JS truthiness of each destructured part), giving
`username:password:apiKey`; anything else is skipped silently. -/
def parseEntry (entry : List Char) :
    Option (List Char × List Char × List Char) :=
  match splitOnSep ':' (trimStr entry) with
  | [username, password, apiKey] =>
      if username ≠ [] ∧ password ≠ [] ∧ apiKey ≠ [] then
        some (username, password, apiKey)
      else none
  | _ => none

/-- The `API_KEYS_MAP` construction: split the environment value on commas
and insert each well-formed entry (the guard `if (apiKeysEnv)` makes an
empty value yield an empty map). -/
def buildApiKeysMap (s : List Char) :
    List (List Char × List Char × List Char) :=
  if s = [] then [] else (splitOnSep ',' s).filterMap parseEntry

/-- Lookup of a username in `API_KEYS_MAP` (iterated `Map.set`: the last
binding for a key wins). -/
def lookupApiKey (m : List (List Char × List Char × List Char))
    (username : List Char) : Option (List Char × List Char) :=
  (m.reverse.find? (fun e => e.1 = username)).map (fun e => e.2)

/-- The UTC calendar day of an instant (minutes since the epoch) — the
day rendered by `Date.prototype.toISOString().split('T')[0]`. -/
def utcDayOfInstant (t : ℤ) : ℤ := Int.fdiv t 1440

/-- The calendar day of an instant in a local timezone that is `off`
minutes ahead of UTC. -/
def localDayOfInstant (t off : ℤ) : ℤ := Int.fdiv (t + off) 1440

/-- The end of the date window `fetchNutritionHistory` computes:
`new Date().toISOString().split('T')[0]` — the UTC day of "now". -/
def historyWindowEnd (t : ℤ) : ℤ := utcDayOfInstant t

/-- The start of the date window: `days - 1` calendar days before "now",
rendered through `toISOString` as a UTC day. -/
def historyWindowStart (t days : ℤ) : ℤ :=
  utcDayOfInstant (t - (days - 1) * 1440)

/-- The target date `fetchGoals` uses: the provided date, or the UTC day
of "now" (`new Date().toISOString().split('T')[0]`) when omitted. -/
def goalsTargetDate (t : ℤ) (date? : Option ℤ) : ℤ :=
  date?.getD (utcDayOfInstant t)

/-- The continue-condition of the streak loop at a given day: a record
exists in the map and its calories are not `=== 0`. -/
def contDay (lookup : ℤ → Option DailyData) (d : ℤ) : Bool :=
  match lookup d with
  | none => false
  | some day => !(day.nutrients.calories.eqb (.fin 0))

/-- A day counts toward the streak in the specification's sense: a record
exists and its `calories > 0`. -/
def goodDay (hist : List DailyData) (d : ℤ) : Bool :=
  match lookupHist hist d with
  | none => false
  | some day => (JsNum.fin 0).lt day.nutrients.calories

/-- Sample six-day history ending at day 0: the oldest day has zero
calories, the five most recent days have positive calories. -/
def streakHist6 : List DailyData :=
  [⟨-5, ⟨.fin 0, .fin 0, .fin 0, .fin 0⟩, none⟩,
   ⟨-4, ⟨.fin 100, .fin 10, .fin 20, .fin 5⟩, none⟩,
   ⟨-3, ⟨.fin 100, .fin 10, .fin 20, .fin 5⟩, none⟩,
   ⟨-2, ⟨.fin 100, .fin 10, .fin 20, .fin 5⟩, none⟩,
   ⟨-1, ⟨.fin 100, .fin 10, .fin 20, .fin 5⟩, none⟩,
   ⟨0, ⟨.fin 100, .fin 10, .fin 20, .fin 5⟩, none⟩]

/-- Sample upstream food entry: `serving_size = 100`, `quantity = 150`,
per-serving `calories = 200`. -/
def sampleEntry : UpstreamFoodEntry :=
  ⟨"rice", "", .breakfast, .fin 150, "g", .fin 100,
   .fin 200, .fin 10, .fin 40, .fin 2⟩

/-- Sample upstream food entry with `serving_size = 0`. -/
def zeroServingEntry : UpstreamFoodEntry :=
  ⟨"rice", "", .breakfast, .fin 150, "g", .fin 0,
   .fin 200, .fin 10, .fin 40, .fin 2⟩

/-- Sample upstream daily total carrying `calories = 0.25` on day 0. -/
def quarterDay : UpstreamNutritionDay :=
  ⟨0, .fin (1/4), .fin 0, .fin 0, .fin 0⟩

/-- A sample nonempty meal breakdown. -/
def oneMeals : Meals :=
  ⟨[⟨"egg", none, .fin 1, "pc", .fin 70, .fin 6, .fin 0, .fin 5⟩],
   [], [], []⟩

/-- A per-day meal fetch that fails exactly on day 0 and succeeds with
`oneMeals` everywhere else. -/
def failAtZero : ℤ → Except Unit Meals :=
  fun d => if d = 0 then .error () else .ok oneMeals

/-- C3: the heatmap zone mapping: `getHeatmapColor` factors through
`heatmapZone`; percentage 0 maps to `NoData`; otherwise zones are bucketed
by adjusted distance at 15/30/50 with the 0.5 over-goal dampening;
`heatmapZone 100 = Good`; and severity is monotone in adjusted distance. -/
theorem heatmapZone_contract :
    (∀ p : ℚ, getHeatmapColor p = colorOfZone (heatmapZone p) (adjustedDistance p))
    ∧ heatmapZone 100 = .Good
    ∧ (∀ p : ℚ, heatmapZone p =
        if p = 0 then .NoData
        else if adjustedDistance p ≤ 15 then .Good
        else if adjustedDistance p ≤ 30 then .Mid
        else if adjustedDistance p ≤ 50 then .Low
        else .High)
    ∧ (∀ p q : ℚ, p ≠ 0 → q ≠ 0 → adjustedDistance p ≤ adjustedDistance q →
        severity (heatmapZone p) ≤ severity (heatmapZone q)) := by
  refine ⟨?_, ?_, ?_, ?_⟩
  · intro p
    by_cases hp : p = 0
    · simp [getHeatmapColor, heatmapZone, colorOfZone, hp]
    · simp only [getHeatmapColor, heatmapZone, colorOfZone, if_neg hp]
      split_ifs <;> rfl
  · norm_num [heatmapZone, adjustedDistance]
  · intro p
    rfl
  · intro p q hp hq hle
    simp only [heatmapZone, if_neg hp, if_neg hq]
    split_ifs <;> simp [severity] <;> linarith

theorem heatmapZone_contract_witness :
    severity (heatmapZone 80) ≤ severity (heatmapZone 140) :=
  heatmapZone_contract.2.2.2 80 140 (by norm_num) (by norm_num)
    (by norm_num [adjustedDistance])

/-- C4 counterexample: for `days = 0` and `days = -3` the aggregation
returns normally with an empty sequence — there is no fail-fast
invalid-input error. -/
theorem daysNonpositive_cex :
    fetchNutritionHistory 0 0 [⟨0, .fin 5, .fin 5, .fin 5, .fin 5⟩] true
      (fun _ => .ok emptyMeals) = []
    ∧ fetchNutritionHistory 0 (-3) [⟨0, .fin 5, .fin 5, .fin 5, .fin 5⟩] true
      (fun _ => .ok emptyMeals) = [] :=
  ⟨rfl, rfl⟩

/-- C4 amended: for every `days ≤ 0` the history aggregation returns the
empty sequence (the window loop body never runs); no error is raised. -/
theorem daysNonpositive_empty (today days : ℤ)
    (data : List UpstreamNutritionDay) (im : Bool)
    (mf : ℤ → Except Unit Meals) (h : days ≤ 0) :
    fetchNutritionHistory today days data im mf = [] := by
  unfold fetchNutritionHistory dateStrings
  rw [Int.toNat_of_nonpos h]
  rfl

theorem daysNonpositive_empty_witness :
    fetchNutritionHistory 5 (-2) [] false (fun _ => .ok emptyMeals) = [] :=
  daysNonpositive_empty 5 (-2) [] false (fun _ => .ok emptyMeals) (by decide)

/-- C9 counterexample: at the instant 1439 minutes into the epoch (23:59
UTC of day 0) with a local timezone 60 minutes ahead of UTC, the window
end produced by `toISOString` is UTC day 0, but the local calendar day is
day 1 — the code uses the UTC day, not the local day. -/
theorem windowEnd_not_localDay_cex :
    historyWindowEnd 1439 = 0 ∧ localDayOfInstant 1439 60 = 1
    ∧ ¬ historyWindowEnd 1439 = localDayOfInstant 1439 60 := by
  decide

/-- C9 amended: every calendar-day string the pipeline builds is the UTC
calendar day of the instant: the window ends at the UTC day of "now",
starts `days - 1` UTC days earlier, and the goals date defaults to the
UTC day of "now". -/
theorem window_utcDays (t days d : ℤ) :
    historyWindowEnd t = utcDayOfInstant t
    ∧ historyWindowStart t days = utcDayOfInstant t - (days - 1)
    ∧ goalsTargetDate t none = utcDayOfInstant t
    ∧ goalsTargetDate t (some d) = d := by
  refine ⟨rfl, ?_, rfl, rfl⟩
  unfold historyWindowStart utcDayOfInstant
  rw [Int.fdiv_eq_ediv _ (by norm_num), Int.fdiv_eq_ediv _ (by norm_num)]
  have h : t - (days - 1) * 1440 = t + (-(days - 1)) * 1440 := by ring
  rw [h, Int.add_mul_ediv_right _ _ (by norm_num : (1440:ℤ) ≠ 0)]
  ring

/-- C6 counterexample: a two-part entry `identity:apiKey` is skipped, so
`alice` gets no binding in the lookup table. -/
theorem twoPartEntry_cex :
    buildApiKeysMap ("alice:key1".toList) = []
    ∧ lookupApiKey (buildApiKeysMap ("alice:key1".toList)) ("alice".toList)
        = none := by
  decide

/-- C6 amended: the parser accepts only the three-part form
`identity:accessSecret:apiKey` (tolerating surrounding whitespace per
entry, and skipping malformed entries silently); an entry that splits
into exactly two parts is skipped. -/
theorem apiKeys_parse :
    (∀ s e u p k : List Char, s ≠ [] → e ∈ splitOnSep ',' s →
        splitOnSep ':' (trimStr e) = [u, p, k] →
        u ≠ [] → p ≠ [] → k ≠ [] →
        (u, p, k) ∈ buildApiKeysMap s)
    ∧ (∀ e u k : List Char, splitOnSep ':' (trimStr e) = [u, k] →
        parseEntry e = none) := by
  constructor
  · intro s e u p k hs he hsplit hu hp hk
    unfold buildApiKeysMap
    rw [if_neg hs]
    refine List.mem_filterMap.mpr ⟨e, he, ?_⟩
    unfold parseEntry
    rw [hsplit]
    simp [hu, hp, hk]
  · intro e u k hsplit
    unfold parseEntry
    rw [hsplit]

theorem apiKeys_parse_witness :
    ("alice".toList, "sec".toList, "key1".toList) ∈
      buildApiKeysMap ("bob:pw:k2, alice:sec:key1 ".toList) :=
  apiKeys_parse.1 ("bob:pw:k2, alice:sec:key1 ".toList)
    (" alice:sec:key1 ".toList) ("alice".toList) ("sec".toList)
    ("key1".toList) (by decide) (by decide) (by decide) (by decide)
    (by decide) (by decide)

/-- C10: the division by `serving_size` is unguarded: an entry with
`serving_size = 0` yields a `FoodItem` whose four nutrient fields are all
non-finite (here `Infinity`), and the transformation returns it normally
instead of failing. -/
theorem unguarded_division_nonfinite :
    (fetchFoodEntriesForDate [zeroServingEntry]).breakfast
        = [toFoodItem zeroServingEntry]
    ∧ (toFoodItem zeroServingEntry).calories = .inf
    ∧ (toFoodItem zeroServingEntry).calories.isFinite = false
    ∧ (toFoodItem zeroServingEntry).protein.isFinite = false
    ∧ (toFoodItem zeroServingEntry).carbs.isFinite = false
    ∧ (toFoodItem zeroServingEntry).fat.isFinite = false := by
  decide

/-- C7: every upstream entry is placed in the bucket of its meal type,
with each nutrient equal to the per-serving value scaled by
`quantity / serving_size` and then rounded to one decimal place. -/
theorem foodItem_scaling (entries : List UpstreamFoodEntry)
    (e : UpstreamFoodEntry) (h : e ∈ entries) :
    toFoodItem e ∈ (fetchFoodEntriesForDate entries).bucket e.meal_type
    ∧ (toFoodItem e).calories
        = round1 (e.calories.mul (e.quantity.div e.serving_size))
    ∧ (toFoodItem e).protein
        = round1 (e.protein.mul (e.quantity.div e.serving_size))
    ∧ (toFoodItem e).carbs
        = round1 (e.carbs.mul (e.quantity.div e.serving_size))
    ∧ (toFoodItem e).fat
        = round1 (e.fat.mul (e.quantity.div e.serving_size)) := by
  refine ⟨?_, rfl, rfl, rfl, rfl⟩
  cases he : e.meal_type <;>
  · simp only [fetchFoodEntriesForDate, Meals.bucket, he]
    exact List.mem_map_of_mem _ (List.mem_filter.mpr ⟨h, by simp [he]⟩)

theorem foodItem_scaling_witness :
    toFoodItem sampleEntry
        ∈ (fetchFoodEntriesForDate [sampleEntry]).bucket .breakfast
    ∧ (toFoodItem sampleEntry).calories = .fin 300 := by
  constructor
  · exact (foodItem_scaling [sampleEntry] sampleEntry (by simp)).1
  · norm_num [sampleEntry, toFoodItem, round1, JsNum.mul, JsNum.div,
      JsNum.round]
lemma fetchHistory_length (today days : ℤ) (data : List UpstreamNutritionDay)
    (im : Bool) (mf : ℤ → Except Unit Meals) :
    (fetchNutritionHistory today days data im mf).length = days.toNat := by
  unfold fetchNutritionHistory dateStrings
  rw [List.length_map, List.length_map, List.length_range]

/-- The dates of the aggregation output are exactly the window dates. -/
lemma fetchHistory_map_date (today days : ℤ)
    (data : List UpstreamNutritionDay) (im : Bool)
    (mf : ℤ → Except Unit Meals) :
    (fetchNutritionHistory today days data im mf).map (fun r => r.date)
      = dateStrings today days := by
  unfold fetchNutritionHistory
  rw [List.map_map]
  exact List.map_id _

/-- C8 counterexample: a daily total of `0.25` calories present upstream
is emitted as `0.3` — the aggregate-endpoint totals are rounded to one
decimal place too, not passed through unrounded. -/
theorem totals_rounding_cex :
    (fetchNutritionHistory 0 1 [quarterDay] false (fun _ => .ok emptyMeals)).map
        (fun r => r.nutrients.calories) = [.fin (3/10)]
    ∧ quarterDay.calories = .fin (1/4)
    ∧ JsNum.fin (3/10) ≠ JsNum.fin (1/4) := by
  refine ⟨?_, rfl, by simp only [ne_eq, JsNum.fin.injEq]; norm_num⟩
  norm_num [fetchNutritionHistory, dateStrings, lookupNutrition, quarterDay,
    round1, JsNum.mul, JsNum.round, JsNum.div, List.range_succ]

/-- C8 amended: the one-decimal-place rounding is applied uniformly: every
daily total present in the upstream response is emitted with each
nutrient field rounded to one decimal place (the same policy as the
scaled meal entries), not unrounded. -/
theorem totals_rounded (today days : ℤ) (data : List UpstreamNutritionDay)
    (im : Bool) (mf : ℤ → Except Unit Meals) (day : DailyData)
    (h : day ∈ fetchNutritionHistory today days data im mf)
    (r : UpstreamNutritionDay)
    (hr : lookupNutrition data day.date = some r) :
    day.nutrients
      = ⟨round1 r.calories, round1 r.protein, round1 r.carbs, round1 r.fat⟩ := by
  unfold fetchNutritionHistory at h
  obtain ⟨d, hd, rfl⟩ := List.mem_map.mp h
  dsimp only at hr ⊢
  rw [hr]

theorem totals_rounded_witness :
    ({ date := 0, nutrients := ⟨.fin (3/10), .fin 0, .fin 0, .fin 0⟩,
       meals := none } : DailyData).nutrients
      = ⟨round1 quarterDay.calories, round1 quarterDay.protein,
         round1 quarterDay.carbs, round1 quarterDay.fat⟩ := by
  refine totals_rounded 0 1 [quarterDay] false (fun _ => .ok emptyMeals)
    _ ?_ quarterDay rfl
  have : fetchNutritionHistory 0 1 [quarterDay] false
      (fun _ => .ok emptyMeals)
      = [{ date := 0, nutrients := ⟨.fin (3/10), .fin 0, .fin 0, .fin 0⟩,
           meals := none }] := by
    norm_num [fetchNutritionHistory, dateStrings, lookupNutrition,
      quarterDay, round1, JsNum.mul, JsNum.round, JsNum.div,
      List.range_succ]
  rw [this]
  exact List.mem_singleton.mpr rfl

/-- C5: with meals included, when the per-day meal fetch fails for one
date `d0` and succeeds everywhere else, the aggregation still returns a
sequence of length exactly `days`, the failed date carries an empty meal
breakdown, and every other date carries the fetched breakdown — the
failure never aborts the aggregation. -/
theorem mealFetch_degradation (today days d0 : ℤ)
    (data : List UpstreamNutritionDay) (mf : ℤ → Except Unit Meals)
    (m : ℤ → Meals) (h : 0 < days)
    (hfail : mf d0 = .error ()) (hok : ∀ d, d ≠ d0 → mf d = .ok (m d)) :
    ((fetchNutritionHistory today days data true mf).length : ℤ) = days
    ∧ ∀ day ∈ fetchNutritionHistory today days data true mf,
        day.meals = some (if day.date = d0 then emptyMeals else m day.date) := by
  constructor
  · rw [fetchHistory_length]
    exact Int.toNat_of_nonneg h.le
  · intro day hday
    obtain ⟨d, hd, rfl⟩ := List.mem_map.mp hday
    dsimp only
    by_cases hdd : d = d0
    · subst hdd
      simp [mealsForDate, hfail]
    · simp [mealsForDate, hok d hdd, hdd]

theorem mealFetch_degradation_witness :
    ((fetchNutritionHistory 0 3 [] true failAtZero).length : ℤ) = 3
    ∧ ∀ day ∈ fetchNutritionHistory 0 3 [] true failAtZero,
        day.meals = some (if day.date = 0 then emptyMeals else oneMeals) := by
  have := mealFetch_degradation 0 3 0 [] failAtZero (fun _ => oneMeals)
    (by decide) rfl (fun d hd => by simp [failAtZero, hd])
  simpa using this

/-- C1: for every `days > 0` the aggregation returns a sequence of length
exactly `days`, whose dates are the consecutive calendar days
`today - days + 1, …, today` in ascending order (each exactly once,
ending at today), and every date absent from the sparse upstream totals
is a record with all four nutrient fields equal to 0, never omitted. -/
theorem history_gapfill (today days : ℤ) (data : List UpstreamNutritionDay)
    (im : Bool) (mf : ℤ → Except Unit Meals) (h : 0 < days) :
    ((fetchNutritionHistory today days data im mf).length : ℤ) = days
    ∧ (∀ (i : ℕ) (hi : i < (fetchNutritionHistory today days data im mf).length),
        ((fetchNutritionHistory today days data im mf).get ⟨i, hi⟩).date
          = today - days + 1 + i)
    ∧ ((fetchNutritionHistory today days data im mf).map
        (fun r => r.date)).getLast? = some today
    ∧ ((fetchNutritionHistory today days data im mf).map
        (fun r => r.date)).Nodup
    ∧ ∀ day ∈ fetchNutritionHistory today days data im mf,
        lookupNutrition data day.date = none →
        day.nutrients = ⟨.fin 0, .fin 0, .fin 0, .fin 0⟩ := by
  refine ⟨?_, ?_, ?_, ?_, ?_⟩
  · rw [fetchHistory_length]
    exact Int.toNat_of_nonneg h.le
  · intro i hi
    unfold fetchNutritionHistory dateStrings
    simp only [List.get_eq_getElem, List.getElem_map, List.getElem_range]
  · rw [fetchHistory_map_date]
    unfold dateStrings
    rw [List.getLast?_eq_getElem?, List.length_map, List.length_range,
      List.getElem?_map,
      List.getElem?_range (show days.toNat - 1 < days.toNat by omega)]
    simp only [Option.map_some']
    congr 1
    omega
  · rw [fetchHistory_map_date]
    unfold dateStrings
    exact (List.nodup_range _).map (fun a b hab => by omega)
  · intro day hday hnone
    obtain ⟨d, hd, rfl⟩ := List.mem_map.mp hday
    dsimp only at hnone ⊢
    rw [hnone]

theorem history_gapfill_witness :
    ((fetchNutritionHistory 0 2 [] false (fun _ => .ok emptyMeals)).length : ℤ) = 2
    ∧ (∀ (i : ℕ)
        (hi : i < (fetchNutritionHistory 0 2 [] false (fun _ => .ok emptyMeals)).length),
        ((fetchNutritionHistory 0 2 [] false (fun _ => .ok emptyMeals)).get
          ⟨i, hi⟩).date = 0 - 2 + 1 + i)
    ∧ ((fetchNutritionHistory 0 2 [] false (fun _ => .ok emptyMeals)).map
        (fun r => r.date)).getLast? = some 0
    ∧ ((fetchNutritionHistory 0 2 [] false (fun _ => .ok emptyMeals)).map
        (fun r => r.date)).Nodup
    ∧ ∀ day ∈ fetchNutritionHistory 0 2 [] false (fun _ => .ok emptyMeals),
        lookupNutrition [] day.date = none →
        day.nutrients = ⟨.fin 0, .fin 0, .fin 0, .fin 0⟩ :=
  history_gapfill 0 2 [] false (fun _ => .ok emptyMeals) (by decide)

/-- Characterization of the streak loop: starting at day `d` with current
count `streak` and fuel `len + 1 - streak`, the loop's result `s`
satisfies `streak ≤ s ≤ len + 1`, every day it stepped over satisfied the
continue-condition, and — unless it stopped via the safety check at
`len + 1` — the day after the last counted one fails the
continue-condition. -/
lemma streakLoop_char (lookup : ℤ → Option DailyData) (len : ℕ) :
    ∀ (fuel : ℕ) (d : ℤ) (streak : ℕ), fuel + streak = len + 1 →
      streak ≤ streakLoop lookup len fuel d streak
      ∧ streakLoop lookup len fuel d streak ≤ len + 1
      ∧ (∀ j : ℕ, streak + j < streakLoop lookup len fuel d streak →
          contDay lookup (d - (j : ℤ)) = true)
      ∧ (streakLoop lookup len fuel d streak ≤ len →
          contDay lookup
            (d - ((streakLoop lookup len fuel d streak - streak : ℕ) : ℤ))
            = false) := by
  intro fuel
  induction fuel with
  | zero =>
    intro d streak hfs
    simp only [streakLoop]
    refine ⟨le_refl _, by omega, ?_, ?_⟩
    · intro j hj
      omega
    · intro hle
      omega
  | succ fuel ih =>
    intro d streak hfs
    cases hl : lookup d with
    | none =>
      simp only [streakLoop, hl]
      refine ⟨le_refl _, by omega, ?_, ?_⟩
      · intro j hj
        omega
      · intro _
        have h0 : (streak - streak : ℕ) = 0 := by omega
        rw [h0]
        simp only [Nat.cast_zero, sub_zero]
        simp [contDay, hl]
    | some day =>
      cases hz : day.nutrients.calories.eqb (.fin 0) with
      | true =>
        simp only [streakLoop, hl, hz, if_true]
        refine ⟨le_refl _, by omega, ?_, ?_⟩
        · intro j hj
          omega
        · intro _
          have h0 : (streak - streak : ℕ) = 0 := by omega
          rw [h0]
          simp only [Nat.cast_zero, sub_zero]
          simp [contDay, hl, hz]
      | false =>
        simp only [streakLoop, hl, hz, Bool.false_eq_true, if_false]
        by_cases hlen : len < streak + 1
        · rw [if_pos hlen]
          refine ⟨by omega, by omega, ?_, ?_⟩
          · intro j hj
            have hj0 : j = 0 := by omega
            subst hj0
            simp only [Nat.cast_zero, sub_zero]
            simp [contDay, hl, hz]
          · intro hle
            omega
        · rw [if_neg hlen]
          obtain ⟨ih1, ih2, ih3, ih4⟩ := ih (d - 1) (streak + 1) (by omega)
          refine ⟨by omega, ih2, ?_, ?_⟩
          · intro j hj
            cases j with
            | zero =>
              simp only [Nat.cast_zero, sub_zero]
              simp [contDay, hl, hz]
            | succ j' =>
              have hc := ih3 j' (by omega)
              have heq : d - 1 - (j' : ℤ) = d - ((j' + 1 : ℕ) : ℤ) := by
                push_cast
                ring
              rwa [heq] at hc
          · intro hle
            have hc := ih4 hle
            have h1 := ih1
            have heq : (d - 1) -
                ((streakLoop lookup len fuel (d - 1) (streak + 1)
                  - (streak + 1) : ℕ) : ℤ)
                = d - ((streakLoop lookup len fuel (d - 1) (streak + 1)
                  - streak : ℕ) : ℤ) := by
              omega
            rwa [heq] at hc

/-- If the continue-condition holds on `k` consecutive days ending at
`today`, the history contains at least `k` records (the `k` distinct
dates all occur among the records' dates). -/
lemma lookup_count_le (hist : List DailyData) (today : ℤ) (k : ℕ)
    (h : ∀ j : ℕ, j < k → contDay (lookupHist hist) (today - (j : ℤ)) = true) :
    k ≤ hist.length := by
  have hmem : ∀ j : ℕ, j < k →
      (today - (j : ℤ)) ∈ hist.map (fun r => r.date) := by
    intro j hj
    have hc := h j hj
    unfold contDay at hc
    cases hl : lookupHist hist (today - (j : ℤ)) with
    | none =>
      rw [hl] at hc
      simp at hc
    | some day =>
      have hdm : day ∈ hist.reverse := List.mem_of_find?_eq_some hl
      have hdd : day.date = today - (j : ℤ) := by
        have := List.find?_some hl
        simpa using this
      rw [List.mem_reverse] at hdm
      exact hdd ▸ List.mem_map_of_mem _ hdm
  classical
  have hcard : (Finset.range k).card ≤
      ((hist.map (fun r => r.date)).toFinset).card := by
    refine Finset.card_le_card_of_injOn (fun j => today - (j : ℤ)) ?_ ?_
    · intro j hj
      exact List.mem_toFinset.mpr (hmem j (Finset.mem_range.mp hj))
    · intro a _ b _ hab
      have hab' : today - (a : ℤ) = today - (b : ℤ) := hab
      omega
  calc k = (Finset.range k).card := (Finset.card_range k).symm
    _ ≤ ((hist.map (fun r => r.date)).toFinset).card := hcard
    _ ≤ (hist.map (fun r => r.date)).length := List.toFinset_card_le _
    _ = hist.length := List.length_map _ _

/-- Under nonnegative finite calorie values, the loop's
continue-condition (`record present and calories !== 0`) coincides with
the specification's streak condition (`record present and calories > 0`). -/
lemma contDay_eq_goodDay (hist : List DailyData)
    (hfin : ∀ r ∈ hist, ∃ q : ℚ, r.nutrients.calories = .fin q ∧ 0 ≤ q)
    (d : ℤ) : contDay (lookupHist hist) d = goodDay hist d := by
  cases hl : lookupHist hist d with
  | none =>
    unfold contDay goodDay
    rw [hl]
  | some day =>
    have hdm : day ∈ hist :=
      List.mem_reverse.mp (List.mem_of_find?_eq_some hl)
    obtain ⟨q, hq, hq0⟩ := hfin day hdm
    unfold contDay goodDay
    rw [hl]
    show (!day.nutrients.calories.eqb (.fin 0))
        = (JsNum.fin 0).lt day.nutrients.calories
    rw [hq]
    rcases eq_or_lt_of_le hq0 with h0 | h0
    · simp [JsNum.eqb, JsNum.lt, ← h0]
    · simp [JsNum.eqb, JsNum.lt, h0, ne_of_gt h0]

/-- C2: `calculateStreakAndTotalDays` returns `totalDays` equal to the
count of days with `calories > 0` (independent of position or
contiguity), and `currentStreak` equal to the number of consecutive days
with `calories > 0` counting backward from today inclusive, stopping at
the first missing or zero-calorie day, bounded by the length of the input
sequence. (Calorie values are assumed nonnegative and finite, as daily
totals are.) -/
theorem streak_totalDays (hist : List DailyData) (today : ℤ)
    (hfin : ∀ r ∈ hist, ∃ q : ℚ, r.nutrients.calories = .fin q ∧ 0 ≤ q) :
    (calculateStreakAndTotalDays hist today).2
      = hist.countP (fun day => (JsNum.fin 0).lt day.nutrients.calories)
    ∧ (calculateStreakAndTotalDays hist today).1 ≤ hist.length
    ∧ (∀ j : ℕ, j < (calculateStreakAndTotalDays hist today).1 →
        goodDay hist (today - (j : ℤ)) = true)
    ∧ goodDay hist
        (today - (((calculateStreakAndTotalDays hist today).1 : ℕ) : ℤ))
        = false := by
  obtain ⟨h1, h2, h3, h4⟩ :=
    streakLoop_char (lookupHist hist) hist.length (hist.length + 1) today 0
      (by omega)
  have hs1 : (calculateStreakAndTotalDays hist today).1
      = streakLoop (lookupHist hist) hist.length (hist.length + 1) today 0 :=
    rfl
  set s := streakLoop (lookupHist hist) hist.length (hist.length + 1) today 0
    with hsdef
  have hsle : s ≤ hist.length := by
    by_contra hgt
    have hall : ∀ j : ℕ, j < hist.length + 1 →
        contDay (lookupHist hist) (today - (j : ℤ)) = true := by
      intro j hj
      exact h3 j (by omega)
    have := lookup_count_le hist today (hist.length + 1) hall
    omega
  refine ⟨?_, ?_, ?_, ?_⟩
  · rw [List.countP_eq_length_filter]
    rfl
  · rw [hs1]
    exact hsle
  · intro j hj
    rw [← contDay_eq_goodDay hist hfin]
    rw [hs1] at hj
    exact h3 j (by omega)
  · rw [← contDay_eq_goodDay hist hfin, hs1]
    have hc := h4 hsle
    simpa using hc

theorem streak_totalDays_witness :
    (∀ r ∈ streakHist6, ∃ q : ℚ, r.nutrients.calories = .fin q ∧ 0 ≤ q)
    ∧ (calculateStreakAndTotalDays streakHist6 0).1 = 5
    ∧ (calculateStreakAndTotalDays streakHist6 0).2 = 5
    ∧ (calculateStreakAndTotalDays streakHist6 0).1 ≤ streakHist6.length
    ∧ goodDay streakHist6
        (0 - ((calculateStreakAndTotalDays streakHist6 0).1 : ℤ)) = false := by
  have hfin : ∀ r ∈ streakHist6,
      ∃ q : ℚ, r.nutrients.calories = .fin q ∧ 0 ≤ q := by
    intro r hr
    fin_cases hr <;> exact ⟨_, rfl, by norm_num⟩
  have hthm := streak_totalDays streakHist6 0 hfin
  exact ⟨hfin, by decide, by decide, hthm.2.1, hthm.2.2.2⟩
